import Mathlib

/-! Shallow embedding of the FogLAMP OutOfBound notification rule plugin
    (src/plugin.cpp) together with proofs about its configuration and
    evaluation behaviour.  JSON documents are modelled by a Lean inductive
    mirroring the rapidjson DOM; C++ doubles are modelled as exact
    rationals, and rapidjson's int64/uint64 number storage is modelled as
    an integer together with the flag predicates rapidjson derives from
    its range. -/

namespace OutOfBoundRule

/-- rapidjson numeric payload: either a floating-point number (modelled
    exactly as a rational) or an integer held in the int64/uint64 union,
    in the range the parser can produce. -/
inductive RJNum where
  | rdouble (q : ℚ)
  | rint (z : ℤ)

/-- rapidjson IsDouble: set only for numbers stored as doubles. -/
def RJNum.isDouble : RJNum → Bool
  | .rdouble _ => true
  | .rint _ => false

/-- rapidjson IsInt: the stored integer fits in a signed 32-bit int. -/
def RJNum.isInt : RJNum → Bool
  | .rdouble _ => false
  | .rint z => decide (-(2 ^ 31) ≤ z ∧ z < 2 ^ 31)

/-- rapidjson IsUint: the stored integer fits in an unsigned 32-bit int. -/
def RJNum.isUint : RJNum → Bool
  | .rdouble _ => false
  | .rint z => decide (0 ≤ z ∧ z < 2 ^ 32)

/-- rapidjson IsInt64: the stored integer fits in a signed 64-bit int. -/
def RJNum.isInt64 : RJNum → Bool
  | .rdouble _ => false
  | .rint z => decide (-(2 ^ 63) ≤ z ∧ z < 2 ^ 63)

/-- rapidjson IsUint64: the stored integer is non-negative. -/
def RJNum.isUint64 : RJNum → Bool
  | .rdouble _ => false
  | .rint z => decide (0 ≤ z)

/-- rapidjson GetInt in a release build reads the low 32 bits of the
    stored integer as a signed int.  That read is out of the accessor's
    contract whenever kIntFlag is unset (a debug build aborts on an
    assertion there); the release-build bit reinterpretation is modelled. -/
def RJNum.getIntW : RJNum → ℤ
  | .rdouble _ => 0
  | .rint z => if z % 2 ^ 32 < 2 ^ 31 then z % 2 ^ 32 else z % 2 ^ 32 - 2 ^ 32

/-- rapidjson GetInt64 in a release build reads the stored 64 bits as a
    signed 64-bit integer; out of contract when kInt64Flag is unset. -/
def RJNum.getInt64W : RJNum → ℤ
  | .rdouble _ => 0
  | .rint z => if z % 2 ^ 64 < 2 ^ 63 then z % 2 ^ 64 else z % 2 ^ 64 - 2 ^ 64

/-- rapidjson GetDouble: the number converted to a double.  The
    integer-to-double conversion is modelled exactly (rounding of
    integers above 2^53 is not modelled). -/
def RJNum.getDoubleQ : RJNum → ℚ
  | .rdouble q => q
  | .rint z => (z : ℚ)

/-- A rapidjson DOM value. -/
inductive JValue where
  | jnull
  | jbool (b : Bool)
  | jnum (n : RJNum)
  | jstr (s : String)
  | jarr (elems : List JValue)
  | jobj (members : List (String × JValue))

/-- rapidjson FindMember: first member with the given key, if any.
    (HasMember and the member accessors require an object value; a
    non-object receiver is out of rapidjson's contract.) -/
def JValue.getMember : JValue → String → Option JValue
  | .jobj ms, key => ms.lookup key
  | _, _ => none

/-- rapidjson HasMember. -/
def JValue.hasMember (v : JValue) (key : String) : Bool :=
  (v.getMember key).isSome

def JValue.isObj : JValue → Bool
  | .jobj _ => true
  | _ => false

def JValue.isNumber : JValue → Bool
  | .jnum _ => true
  | _ => false

def JValue.isBool : JValue → Bool
  | .jbool _ => true
  | _ => false

def JValue.isDouble : JValue → Bool
  | .jnum n => n.isDouble
  | _ => false

def JValue.isInt : JValue → Bool
  | .jnum n => n.isInt
  | _ => false

def JValue.isUint : JValue → Bool
  | .jnum n => n.isUint
  | _ => false

def JValue.isInt64 : JValue → Bool
  | .jnum n => n.isInt64
  | _ => false

def JValue.isUint64 : JValue → Bool
  | .jnum n => n.isUint64
  | _ => false

def JValue.getIntW : JValue → ℤ
  | .jnum n => n.getIntW
  | _ => 0

def JValue.getInt64W : JValue → ℤ
  | .jnum n => n.getInt64W
  | _ => 0

def JValue.getDoubleQ : JValue → ℚ
  | .jnum n => n.getDoubleQ
  | _ => 0

/-- Evaluate a single datapoint value against the limit
    (plugin.cpp evalData, lines 345-382), including the branch that
    reads a 32-bit-flagged number with GetInt and a 64-bit-flagged one
    with GetInt64. -/
def evalData (point : JValue) (limitValue : ℚ) : Bool :=
  if point.isDouble then
    decide (point.getDoubleQ > limitValue)
  else
    if point.isInt || point.isUint || point.isInt64 || point.isUint64 then
      if point.isInt || point.isUint then
        decide ((point.getIntW : ℚ) > limitValue)
      else
        decide ((point.getInt64W : ℚ) > limitValue)
    else
      false

/-- The loop body of checkDoubleLimit's array case (plugin.cpp lines
    404-414): one iteration per element, but each iteration evaluates
    `point` — the whole array value — because the iterator is never
    dereferenced, exactly as in the source. -/
def arrScan (point : JValue) (limitValue : ℚ) : Bool → List JValue → Bool
  | ret, [] => ret
  | _, _e :: rest =>
    let ret := evalData point limitValue
    if ret then ret else arrScan point limitValue ret rest

/-- checkDoubleLimit (plugin.cpp lines 393-420): dispatch on the
    rapidjson value type; numbers go through evalData, arrays run the
    per-element loop (whose body re-evaluates the array value itself),
    everything else leaves the initial false. -/
def checkDoubleLimit (point : JValue) (limitValue : ℚ) : Bool :=
  match point with
  | .jnum _ => evalData point limitValue
  | .jarr elems => arrScan point limitValue false elems
  | _ => false

/-- DatapointValue restricted to the tags the plugin dispatches on
    (T_FLOAT carrying a double, T_STRING standing for every other tag). -/
inductive DatapointValue where
  | t_float (d : ℚ)
  | t_string (s : String)
  deriving DecidableEq

def DatapointValue.toDouble : DatapointValue → ℚ
  | .t_float d => d
  | .t_string _ => 0

structure Datapoint where
  name : String
  data : DatapointValue
  deriving DecidableEq

/-- RuleTrigger as used by this plugin: the evaluation label and interval
    set by addEvaluation, the eval-all-datapoints policy, and the owned
    datapoints. -/
structure RuleTrigger where
  evaluation : String
  interval : ℕ
  evalAll : Bool
  datapoints : List Datapoint
  deriving DecidableEq

/-- The datapoint loop of evalAsset (plugin.cpp lines 438-472).  The
    accumulator is the local assetEval: overwritten by the float branch,
    left unchanged by the string/default branch (the break there precedes
    the dead assignment), reset to false for a missing datapoint, and the
    early break fires only when the result is true and the policy is not
    eval-all. -/
def evalAssetGo (assetValue : JValue) (evalAlldatapoints : Bool) :
    Bool → List Datapoint → Bool
  | assetEval, [] => assetEval
  | assetEval, dp :: rest =>
    match assetValue.getMember dp.name with
    | some point =>
      let assetEval2 :=
        match dp.data with
        | .t_float q => checkDoubleLimit point q
        | .t_string _ => assetEval
      if assetEval2 && !evalAlldatapoints then assetEval2
      else evalAssetGo assetValue evalAlldatapoints assetEval2 rest
    | none => evalAssetGo assetValue evalAlldatapoints false rest

/-- evalAsset (plugin.cpp lines 431-476). -/
def evalAsset (assetValue : JValue) (rule : RuleTrigger) : Bool :=
  evalAssetGo assetValue rule.evalAll false rule.datapoints

/-- Instrumented copy of the evalAsset loop that also returns the list of
    datapoints the loop never visited (empty unless the early break
    fired). -/
def evalAssetGoT (assetValue : JValue) (evalAlldatapoints : Bool) :
    Bool → List Datapoint → Bool × List Datapoint
  | assetEval, [] => (assetEval, [])
  | assetEval, dp :: rest =>
    match assetValue.getMember dp.name with
    | some point =>
      let assetEval2 :=
        match dp.data with
        | .t_float q => checkDoubleLimit point q
        | .t_string _ => assetEval
      if assetEval2 && !evalAlldatapoints then (assetEval2, rest)
      else evalAssetGoT assetValue evalAlldatapoints assetEval2 rest
    | none => evalAssetGoT assetValue evalAlldatapoints false rest

/-- evalAsset together with its unvisited suffix. -/
def evalAssetT (assetValue : JValue) (rule : RuleTrigger) : Bool × List Datapoint :=
  evalAssetGoT assetValue rule.evalAll false rule.datapoints

/-- One datapoint scores a hit: it is present in the asset's reading,
    its configured value is a float, and checkDoubleLimit exceeds. -/
def dpHit (assetValue : JValue) (dp : Datapoint) : Bool :=
  match assetValue.getMember dp.name with
  | some point =>
    match dp.data with
    | .t_float q => checkDoubleLimit point q
    | .t_string _ => false
  | none => false

/-- The BuiltinRule trigger state (builtin_rule.h, external header). -/
inductive TriggerState where
  | stateCleared
  | stateTriggered
  deriving DecidableEq

/-- The engine state this plugin manipulates: the trigger map (as a
    sorted association list, mirroring std::map iteration order) and the
    triggered/cleared flag. -/
structure OutOfBound where
  triggers : List (String × RuleTrigger)
  state : TriggerState
  deriving DecidableEq

/-- Modelled from the spec: the BuiltinRule base class (an external
    header, not under src/) starts every engine instance with no triggers
    and in the Cleared state. -/
def OutOfBound.init : OutOfBound :=
  ⟨[], .stateCleared⟩

/-- Modelled from the spec: BuiltinRule::setState stores Triggered when
    the evaluation result is true and Cleared when it is false. -/
def setState (evalResult : Bool) (r : OutOfBound) : OutOfBound :=
  ⟨r.triggers, if evalResult then .stateTriggered else .stateCleared⟩

/-- Modelled from the spec: BuiltinRule::addTrigger inserts into a
    std::map keyed by asset name.  std::map::insert keeps the existing
    entry when the key is already present, and iteration is in sorted
    key order, so the model inserts into a sorted association list
    without overwriting. -/
def addTrigger (asset : String) (t : RuleTrigger) :
    List (String × RuleTrigger) → List (String × RuleTrigger)
  | [] => [(asset, t)]
  | (a, u) :: rest =>
    if asset < a then (asset, t) :: (a, u) :: rest
    else if asset = a then (a, u) :: rest
    else (a, u) :: addTrigger asset t rest

/-- plugin_eval (plugin.cpp lines 261-301) over an already-parsed reading
    document; `none` models a rapidjson parse error, which returns false
    before the engine is touched.  The loop overwrites `eval` on every
    configured asset and never accumulates, exactly as in the source. -/
def plugin_eval (parsed : Option JValue) (r : OutOfBound) : Bool × OutOfBound :=
  match parsed with
  | none => (false, r)
  | some doc =>
    let evalResult := r.triggers.foldl
      (fun _prev t =>
        match doc.getMember t.1 with
        | some assetValue => evalAsset assetValue t.2
        | none => false)
      false
    (evalResult, setState evalResult r)

/-- The reason document built by plugin_reason (plugin.cpp lines 308-317)
    for a given reason word. -/
def reasonStr (s : String) : String :=
  "\x7b \"reason\": \"" ++ s ++ "\" \x7d"

/-- plugin_reason (plugin.cpp lines 308-317). -/
def plugin_reason (r : OutOfBound) : String :=
  reasonStr (if r.state = .stateTriggered then "triggered" else "cleared")

/-- One entry of the triggers document (plugin.cpp lines 226-235): the
    asset name, and the evaluation label with the interval when the label
    is non-empty. -/
def triggerEntry (p : String × RuleTrigger) : String :=
  let head := "\x7b \"asset\"  : \"" ++ p.1 ++ "\""
  if p.2.evaluation = "" then head ++ " \x7d"
  else head ++ ", \"" ++ p.2.evaluation ++ "\" : " ++ toString p.2.interval ++ " \x7d"

def commaSep : String := ", "

/-- plugin_triggers (plugin.cpp lines 205-249). -/
def plugin_triggers (r : OutOfBound) : String :=
  if r.triggers.isEmpty then "\x7b\"triggers\" : []\x7d"
  else
    "\x7b\"triggers\" : [ " ++
      String.intercalate commaSep (r.triggers.map triggerEntry) ++ " ] \x7d"

def kRules : String := "rules"
def kAsset : String := "asset"
def kName : String := "name"
def kValue : String := "value"
def kEvaluationData : String := "evaluation_data"
def kWindowData : String := "window_data"
def kTimeInterval : String := "time_interval"
def kTimeWindow : String := "time_window"
def kEvalAllDatapoints : String := "eval_all_datapoints"
def kDatapoints : String := "datapoints"
def kTriggerValue : String := "trigger_value"

def missingMemberMsg : String := "rapidjson assert in operator[]: missing member "
def nonObjectMsg : String := "rapidjson assert in operator[]: not an object"
def getStringMsg : String := "rapidjson assert in GetString: not a string"
def getIntMsg : String := "rapidjson assert in GetInt: kIntFlag not set"

/-- rapidjson operator[] on an object: out of contract (assertion
    failure in a debug build, undefined value in a release build) when
    the member is missing or the receiver is not an object; modelled as
    an aborting error. -/
def JValue.memberA : JValue → String → Except String JValue
  | .jobj ms, key =>
    match ms.lookup key with
    | some v => .ok v
    | none => .error (missingMemberMsg ++ key)
  | _, _ => .error nonObjectMsg

/-- rapidjson GetString: out of contract on a non-string value. -/
def JValue.getStringE : JValue → Except String String
  | .jstr s => .ok s
  | _ => .error getStringMsg

/-- rapidjson GetInt: out of contract unless the number carries
    kIntFlag. -/
def JValue.getIntE : JValue → Except String ℤ
  | .jnum n => if n.isInt then .ok n.getIntW else .error getIntMsg
  | _ => .error getIntMsg

/-- rapidjson GetBool (only reached behind an IsBool guard in the
    source). -/
def JValue.getBoolD : JValue → Bool
  | .jbool b => b
  | _ => false

/-- The evaluation_data block of OutOfBound::configure (plugin.cpp lines
    554-559): window evaluation is requested when evaluation_data.value
    compares equal to the string Window. -/
def ruleWindowEvaluation (rule : JValue) : Except String Bool :=
  match rule.getMember kEvaluationData with
  | none => .ok false
  | some type =>
    match type.memberA kValue with
    | .error e => .error e
    | .ok ev =>
      match ev.getStringE with
      | .error e => .error e
      | .ok s => .ok (s = "Window")

/-- The window_data block of OutOfBound::configure (plugin.cpp lines
    560-575): yields the window_data label and the time interval.  The
    interval is read from the member named time_interval (and only from
    it); otherwise it stays 0.  The unsigned-int assignment is modelled
    by reduction mod 2^32. -/
def ruleWindowData (rule : JValue) (window_evaluation : Bool) :
    Except String (String × ℕ) :=
  if window_evaluation && rule.hasMember kWindowData then
    match rule.memberA kWindowData with
    | .error e => .error e
    | .ok type =>
      match type.memberA kValue with
      | .error e => .error e
      | .ok wv =>
        match wv.getStringE with
        | .error e => .error e
        | .ok window_data =>
          if window_data != "" && rule.hasMember kTimeInterval then
            match rule.memberA kTimeInterval with
            | .error e => .error e
            | .ok interval =>
              match interval.getIntE with
              | .error e => .error e
              | .ok z => .ok (window_data, (z % 2 ^ 32).toNat)
          else .ok (window_data, 0)
  else .ok ("", 0)

/-- The trigger construction for one datapoint entry (plugin.cpp lines
    596-612): when a numeric trigger_value is present, build a
    Datapoint/RuleTrigger pair holding the value as a T_FLOAT double and
    add it under the asset name; otherwise leave the triggers alone. -/
def dpAccStep (assetName : String) (window_data : String)
    (timeInterval : ℕ) (evalAlldatapoints : Bool) (dataPointName : String)
    (d : JValue) (acc : List (String × RuleTrigger)) :
    List (String × RuleTrigger) :=
  match d.getMember kTriggerValue with
  | some tv =>
    if tv.isNumber then
      addTrigger assetName
        ⟨window_data, timeInterval, evalAlldatapoints,
          [⟨dataPointName, .t_float tv.getDoubleQ⟩]⟩ acc
    else acc
  | none => acc

/-- The datapoints loop of OutOfBound::configure (plugin.cpp lines
    588-614): for every entry carrying a name, read the name (GetString,
    which aborts on a non-string) and run dpAccStep on it. -/
def compileDatapoints (assetName : String) (window_data : String)
    (timeInterval : ℕ) (evalAlldatapoints : Bool)
    (acc : List (String × RuleTrigger)) :
    List JValue → Except String (List (String × RuleTrigger))
  | [] => .ok acc
  | d :: rest =>
    if d.hasMember kName then
      match d.memberA kName with
      | .error e => .error e
      | .ok nv =>
        match nv.getStringE with
        | .error e => .error e
        | .ok dataPointName =>
          compileDatapoints assetName window_data timeInterval
            evalAlldatapoints
            (dpAccStep assetName window_data timeInterval evalAlldatapoints
              dataPointName d acc) rest
    else
      compileDatapoints assetName window_data timeInterval
        evalAlldatapoints acc rest

/-- One iteration of the rules loop of OutOfBound::configure (plugin.cpp
    lines 534-620).  A rule is skipped only when it lacks BOTH the asset
    and the datapoints members (the && in the source); after that every
    member access is unguarded, so a rule having exactly one of the two
    aborts inside operator[]. -/
def compileRule (acc : List (String × RuleTrigger)) (rule : JValue) :
    Except String (List (String × RuleTrigger)) :=
  if !rule.hasMember kAsset && !rule.hasMember kDatapoints then .ok acc
  else
    match rule.memberA kAsset with
    | .error e => .error e
    | .ok asset =>
      match asset.memberA kName with
      | .error e => .error e
      | .ok nv =>
        match nv.getStringE with
        | .error e => .error e
        | .ok assetName =>
          if assetName = "" then .ok acc
          else
            match ruleWindowEvaluation rule with
            | .error e => .error e
            | .ok window_evaluation =>
              match ruleWindowData rule window_evaluation with
              | .error e => .error e
              | .ok wd =>
                match rule.memberA kDatapoints with
                | .error e => .error e
                | .ok datapoints =>
                  let evalAlldatapoints :=
                    match rule.getMember kEvalAllDatapoints with
                    | some b => if b.isBool then b.getBoolD else true
                    | none => true
                  match datapoints with
                  | .jarr ds =>
                    compileDatapoints assetName wd.1 wd.2
                      evalAlldatapoints acc ds
                  | _ => .ok acc

/-- The rules loop of OutOfBound::configure. -/
def compileRules (acc : List (String × RuleTrigger)) :
    List JValue → Except String (List (String × RuleTrigger))
  | [] => .ok acc
  | rule :: rest =>
    match compileRule acc rule with
    | .error e => .error e
    | .ok acc2 => compileRules acc2 rest

/-- OutOfBound::configure (plugin.cpp lines 500-624) over an
    already-parsed rule_config document (`none` models a rapidjson parse
    error).  A parse error, a missing rules member or a non-array rules
    value leaves the previous triggers in place; a rules array first
    clears the triggers and then compiles each rule.  Out-of-contract
    rapidjson accesses are modelled as aborting errors. -/
def configureTriggers (parsed : Option JValue)
    (old : List (String × RuleTrigger)) :
    Except String (List (String × RuleTrigger)) :=
  match parsed with
  | none => .ok old
  | some doc =>
    match doc.getMember kRules with
    | none => .ok old
    | some rules =>
      match rules with
      | .jarr ruleList => compileRules [] ruleList
      | _ => .ok old

/-- configure at the engine level: replaces the triggers, never touches
    the triggered/cleared flag. -/
def OutOfBound.configure (parsed : Option JValue) (r : OutOfBound) :
    Except String OutOfBound :=
  match configureTriggers parsed r.triggers with
  | .error e => .error e
  | .ok ts => .ok ⟨ts, r.state⟩

/-- Whether a modelled run aborted in an out-of-contract library call. -/
def exceptAborted {α : Type} : Except String α → Bool
  | .error _ => true
  | .ok _ => false

/-- The compiled triggers of a non-aborting configure run (empty list
    for an aborting one). -/
def triggersOf (e : Except String (List (String × RuleTrigger))) :
    List (String × RuleTrigger) :=
  match e with
  | .ok ts => ts
  | .error _ => []

/-- The state of a non-aborting engine-level configure run, with a
    default for an aborting one. -/
def okStateD (e : Except String OutOfBound) (dflt : TriggerState) :
    TriggerState :=
  match e with
  | .ok r => r.state
  | .error _ => dflt

/-- A trigger with a single float datapoint, empty evaluation label and
    the eval-all policy, as the compiler produces for a plain rule. -/
def trigSimple (dpName : String) (lim : ℚ) : RuleTrigger :=
  ⟨"", 0, true, [⟨dpName, .t_float lim⟩]⟩

/-- Engine with two configured assets a and b, each watching datapoint x
    with limit 100. -/
def rC1 : OutOfBound :=
  ⟨[(("a"), trigSimple ("x") 100), (("b"), trigSimple ("x") 100)], .stateCleared⟩

/-- Reading document carrying only asset b, whose datapoint x is 200. -/
def docC1 : JValue :=
  .jobj [("b", .jobj [("x", .jnum (.rdouble 200))])]

/-- C1: counterexample to all-assets AND aggregation.  Asset a is absent
    from the reading document, yet plugin_eval returns true, because the
    loop overwrites the result on every asset and only the last
    (lexicographically greatest) asset's verdict survives. -/
theorem c1_last_asset_wins :
    docC1.hasMember ("a") = false ∧
    (plugin_eval (some docC1) rC1).1 = true ∧
    (plugin_eval (some docC1) rC1).2.state = TriggerState.stateTriggered := by
  decide

/-- Asset reading that lacks datapoint x and carries y = 200. -/
def vC2 : JValue := .jobj [("y", .jnum (.rdouble 200))]

/-- Trigger with the eval-all policy over datapoints x and y, both with
    limit 100. -/
def ruleC2 : RuleTrigger :=
  ⟨"", 0, true, [⟨"x", .t_float 100⟩, ⟨"y", .t_float 100⟩]⟩

/-- C2: counterexample to all-datapoints AND aggregation under
    evalAllDatapoints = true.  Datapoint x is missing from the reading,
    yet the per-asset result is true, because the loop never accumulates
    and only the last datapoint's verdict survives. -/
theorem c2_last_datapoint_wins :
    ruleC2.evalAll = true ∧
    vC2.hasMember ("x") = false ∧
    evalAsset vC2 ruleC2 = true := by
  decide

/-- A one-element JSON array whose element is 200. -/
def arrC3 : JValue := .jarr [.jnum (.rdouble 200)]

/-- C3: counterexample to any-element array semantics.  The single
    element 200 exceeds the limit 100 (second conjunct), yet
    checkDoubleLimit on the array is false, because the loop body
    evaluates the array value itself instead of the element, and
    evalData on an array is always false. -/
theorem c3_array_never_triggers :
    checkDoubleLimit arrC3 100 = false ∧
    evalData (.jnum (.rdouble 200)) 100 = true := by
  decide

/-- C7: counterexample to the numeric-coercion claim.  The value 2^31 is
    an unsigned 32-bit integer (IsUint, not IsInt), so evalData takes the
    GetInt branch out of contract; the release-build low-32-bit read
    yields -2^31, so the comparison against limit 100 is false although
    2^31 > 100. -/
theorem c7_uint_reading_misread :
    (JValue.jnum (.rint 2147483648)).isUint = true ∧
    (JValue.jnum (.rint 2147483648)).isInt = false ∧
    evalData (.jnum (.rint 2147483648)) 100 = false ∧
    ((2147483648 : ℚ) > 100) := by
  decide

/-- Rule entry with an asset but no datapoints member. -/
def ruleBadC4 : JValue :=
  .jobj [(kAsset, .jobj [(kName, .jstr ("a1"))])]

/-- Well-formed sibling rule entry for asset a2. -/
def ruleGoodC4 : JValue :=
  .jobj [(kAsset, .jobj [(kName, .jstr ("a2"))]),
    (kDatapoints, .jarr [.jobj [(kName, .jstr ("dp")),
      (kTriggerValue, .jnum (.rdouble 5))]])]

/-- rule_config with the malformed entry followed by the well-formed
    sibling. -/
def cfgC4 : JValue := .jobj [(kRules, .jarr [ruleBadC4, ruleGoodC4])]

/-- rule_config with only the well-formed sibling. -/
def cfgC4good : JValue := .jobj [(kRules, .jarr [ruleGoodC4])]

/-- C4: counterexample to graceful skipping of malformed rule entries.
    A rule that has an asset but no datapoints member passes the skip
    guard (which requires BOTH members to be missing) and then aborts in
    the unguarded rule[datapoints] access, so configure fails and the
    well-formed sibling never compiles; the same sibling alone compiles
    into a trigger. -/
theorem c4_missing_datapoints_aborts :
    exceptAborted (configureTriggers (some cfgC4) []) = true ∧
    configureTriggers (some cfgC4) [] =
      .error (missingMemberMsg ++ kDatapoints) ∧
    triggersOf (configureTriggers (some cfgC4good) []) =
      [("a2", ⟨"", 0, true, [⟨"dp", .t_float 5⟩]⟩)] := by
  constructor
  · decide
  · constructor
    · rfl
    · decide

/-- The C5 configuration rule: Window evaluation, window_data All, and
    an integer time_window of 45 (the key the schema declares). -/
def ruleC5 : JValue :=
  .jobj [(kAsset, .jobj [(kName, .jstr ("flow"))]),
    (kDatapoints, .jarr [.jobj [(kName, .jstr ("random")),
      (kTriggerValue, .jnum (.rdouble 100))]]),
    (kEvaluationData, .jobj [(kValue, .jstr ("Window"))]),
    (kWindowData, .jobj [(kValue, .jstr ("All"))]),
    (kTimeWindow, .jnum (.rint 45))]

def cfgC5 : JValue := .jobj [(kRules, .jarr [ruleC5])]

/-- The triggers the C5 configuration actually compiles to: the interval
    is 0, not 45. -/
def trigsC5 : List (String × RuleTrigger) :=
  [("flow", ⟨"All", 0, true, [⟨"random", .t_float 100⟩]⟩)]

/-- C5: counterexample to the time_window claim.  The rule carries an
    integer time_window = 45 yet no time_interval member, and configure
    reads only time_interval, so the compiled trigger stores interval 0
    and plugin_triggers reports the All label with 0 instead of 45. -/
theorem c5_time_window_ignored :
    ruleC5.hasMember kTimeWindow = true ∧
    ruleC5.hasMember kTimeInterval = false ∧
    triggersOf (configureTriggers (some cfgC5) []) = trigsC5 ∧
    plugin_triggers ⟨trigsC5, .stateCleared⟩ =
      "\x7b\"triggers\" : [ \x7b \"asset\"  : \"flow\", \"All\" : 0 \x7d ] \x7d" := by
  decide

/-- C6: a reading document that fails to parse short-circuits
    plugin_eval: the result is false and the engine — its triggered
    state included — is exactly the one that was in place before the
    call. -/
theorem c6_parse_error_is_inert (r : OutOfBound) :
    plugin_eval none r = (false, r) := rfl

/-- With the first-success policy the datapoint loop computes exactly
    the any-aggregation of per-datapoint hits. -/
theorem evalAssetGo_any (v : JValue) :
    ∀ l : List Datapoint, evalAssetGo v false false l = l.any (dpHit v) := by
  intro l
  induction l with
  | nil => rfl
  | cons dp rest ih =>
    rw [List.any_cons]
    cases hm : v.getMember dp.name with
    | none =>
      have hdp : dpHit v dp = false := by simp [dpHit, hm]
      simp [evalAssetGo, hm, hdp, ih]
    | some point =>
      cases hd : dp.data with
      | t_float q =>
        have hdp : dpHit v dp = checkDoubleLimit point q := by
          simp [dpHit, hm, hd]
        cases hc : checkDoubleLimit point q with
        | true => simp [evalAssetGo, hm, hd, hc, hdp]
        | false => simp [evalAssetGo, hm, hd, hc, hdp, ih]
      | t_string s =>
        have hdp : dpHit v dp = false := by simp [dpHit, hm, hd]
        simp [evalAssetGo, hm, hd, hdp, ih]

/-- With the first-success policy the loop breaks at the first hit and
    leaves exactly the suffix after that hit unvisited. -/
theorem evalAssetGoT_firstHit (v : JValue) :
    ∀ pre (dp : Datapoint) post, pre.any (dpHit v) = false →
      dpHit v dp = true →
      evalAssetGoT v false false (pre ++ dp :: post) = (true, post) := by
  intro pre
  induction pre with
  | nil =>
    intro dp post _ hdp
    cases hm : v.getMember dp.name with
    | none => simp [dpHit, hm] at hdp
    | some point =>
      cases hd : dp.data with
      | t_string s => simp [dpHit, hm, hd] at hdp
      | t_float q =>
        have hc : checkDoubleLimit point q = true := by
          simpa [dpHit, hm, hd] using hdp
        simp [evalAssetGoT, hm, hd, hc]
  | cons p pre ih =>
    intro dp post hpre hdp
    simp only [List.any_cons, Bool.or_eq_false_iff] at hpre
    obtain ⟨hp, hpre2⟩ := hpre
    rw [List.cons_append]
    cases hm : v.getMember p.name with
    | none =>
      simpa [evalAssetGoT, hm] using ih dp post hpre2 hdp
    | some point =>
      cases hd : p.data with
      | t_float q =>
        have hc : checkDoubleLimit point q = false := by
          simpa [dpHit, hm, hd] using hp
        simpa [evalAssetGoT, hm, hd, hc] using ih dp post hpre2 hdp
      | t_string s =>
        simpa [evalAssetGoT, hm, hd] using ih dp post hpre2 hdp

/-- C8: for an asset reading (a JSON object) evaluated under
    evalAllDatapoints = false, the per-asset result is true exactly when
    some configured datapoint is present and exceeds its limit, and the
    loop stops at the first such datapoint: everything after it is left
    unvisited. -/
theorem c8_eval_any_first_success (v : JValue) (rule : RuleTrigger)
    (_hobj : v.isObj = true) (hev : rule.evalAll = false) :
    evalAsset v rule = rule.datapoints.any (dpHit v) ∧
    ∀ pre dp post, rule.datapoints = pre ++ dp :: post →
      pre.any (dpHit v) = false → dpHit v dp = true →
      evalAssetT v rule = (true, post) := by
  constructor
  · rw [evalAsset, hev, evalAssetGo_any]
  · intro pre dp post hsplit hpre hdp
    rw [evalAssetT, hev, hsplit]
    exact evalAssetGoT_firstHit v pre dp post hpre hdp

/-- Three datapoints with limit 100 under the first-success policy. -/
def ruleC8 : RuleTrigger :=
  ⟨"", 0, false,
    [⟨"u", .t_float 100⟩, ⟨"w", .t_float 100⟩, ⟨"z", .t_float 100⟩]⟩

/-- Reading where the first datapoint is below the limit and only the
    second exceeds it. -/
def vC8 : JValue :=
  .jobj [("u", .jnum (.rdouble 50)), ("w", .jnum (.rdouble 200))]

/-- Witness for C8 at a concrete reading and trigger: only the second
    of three datapoints exceeds, the result is true, and the third
    datapoint is left unvisited. -/
theorem c8_witness :
    evalAsset vC8 ruleC8 = List.any ruleC8.datapoints (dpHit vC8) ∧
    evalAssetT vC8 ruleC8 = (true, [⟨"z", DatapointValue.t_float 100⟩]) ∧
    evalAsset vC8 ruleC8 = true := by
  refine ⟨(c8_eval_any_first_success vC8 ruleC8 (by decide) (by decide)).1,
    ?_, by decide⟩
  exact (c8_eval_any_first_success vC8 ruleC8 (by decide) (by decide)).2
    [⟨"u", .t_float 100⟩] ⟨"w", .t_float 100⟩ [⟨"z", .t_float 100⟩]
    (by decide) (by decide) (by decide)

/-- C9: the two-state machine of the engine.  The initial state is
    Cleared; every plugin_eval call on a parseable (object) reading
    document stores Triggered exactly when its result is true and
    Cleared otherwise; a non-aborting configure never changes the state;
    and plugin_reason emits the triggered document exactly when the
    state is Triggered and the cleared document otherwise. -/
theorem c9_state_machine :
    OutOfBound.init.state = TriggerState.stateCleared ∧
    (∀ doc r, doc.isObj = true →
      (plugin_eval (some doc) r).2.state =
        (if (plugin_eval (some doc) r).1 then TriggerState.stateTriggered
          else TriggerState.stateCleared)) ∧
    (∀ parsed r, okStateD (OutOfBound.configure parsed r) r.state = r.state) ∧
    (∀ r, (plugin_reason r = reasonStr ("triggered") ↔
        r.state = TriggerState.stateTriggered) ∧
      (plugin_reason r = reasonStr ("cleared") ↔
        ¬ r.state = TriggerState.stateTriggered)) := by
  refine ⟨rfl, ?_, ?_, ?_⟩
  · intro doc r _
    simp [plugin_eval, setState]
  · intro parsed r
    unfold OutOfBound.configure okStateD
    cases configureTriggers parsed r.triggers <;> rfl
  · intro r
    obtain ⟨ts, st⟩ := r
    have hne : ¬ (reasonStr ("cleared") = reasonStr ("triggered")) := by decide
    have hne2 : ¬ (reasonStr ("triggered") = reasonStr ("cleared")) := by decide
    cases st
    · exact ⟨⟨fun h => absurd h hne, fun h => TriggerState.noConfusion h⟩,
        ⟨fun _ h => TriggerState.noConfusion h, fun _ => rfl⟩⟩
    · exact ⟨⟨fun _ => rfl, fun _ => rfl⟩,
        ⟨fun h => absurd h hne2, fun h => absurd rfl h⟩⟩

/-- Engine with one configured asset f. -/
def rC9 : OutOfBound := ⟨[("f", trigSimple ("x") 100)], .stateCleared⟩

/-- Reading for asset f whose datapoint x is 200. -/
def docC9 : JValue := .jobj [("f", .jobj [("x", .jnum (.rdouble 200))])]

/-- Witness for C9 at a concrete engine, reading and configuration. -/
theorem c9_witness :
    OutOfBound.init.state = TriggerState.stateCleared ∧
    (plugin_eval (some docC9) rC9).2.state =
      (if (plugin_eval (some docC9) rC9).1 then TriggerState.stateTriggered
        else TriggerState.stateCleared) ∧
    okStateD (OutOfBound.configure (some cfgC5) rC9) rC9.state = rC9.state ∧
    (plugin_reason rC9 = reasonStr ("cleared") ↔
      ¬ rC9.state = TriggerState.stateTriggered) :=
  ⟨c9_state_machine.1,
    c9_state_machine.2.1 docC9 rC9 (by decide),
    c9_state_machine.2.2.1 (some cfgC5) rC9,
    (c9_state_machine.2.2.2 rC9).2⟩

/-- All datapoints of a trigger carry a T_FLOAT value. -/
def floatsOnly (t : RuleTrigger) : Prop :=
  ∀ dp, dp ∈ t.datapoints → ∃ q, dp.data = DatapointValue.t_float q

/-- The evalAsset loop with the datapoint-type dispatch removed: every
    present datapoint goes straight through checkDoubleLimit on its
    stored double.  Coincides with the real loop whenever every
    configured datapoint is a T_FLOAT. -/
def evalAssetFloatsGo (assetValue : JValue) (evalAlldatapoints : Bool) :
    Bool → List Datapoint → Bool
  | assetEval, [] => assetEval
  | _assetEval, dp :: rest =>
    match assetValue.getMember dp.name with
    | some point =>
      let assetEval2 := checkDoubleLimit point dp.data.toDouble
      if assetEval2 && !evalAlldatapoints then assetEval2
      else evalAssetFloatsGo assetValue evalAlldatapoints assetEval2 rest
    | none => evalAssetFloatsGo assetValue evalAlldatapoints false rest

def evalAssetFloats (assetValue : JValue) (rule : RuleTrigger) : Bool :=
  evalAssetFloatsGo assetValue rule.evalAll false rule.datapoints

/-- Membership after a std::map-style insert: the element is the
    inserted pair or was already present. -/
theorem mem_addTrigger {p : String × RuleTrigger} {a : String}
    {t : RuleTrigger} :
    ∀ {l}, p ∈ addTrigger a t l → p = (a, t) ∨ p ∈ l := by
  intro l
  induction l with
  | nil =>
    intro h
    simp only [addTrigger] at h
    exact Or.inl (List.mem_singleton.mp h)
  | cons hd rest ih =>
    obtain ⟨b, u⟩ := hd
    intro h
    simp only [addTrigger] at h
    split at h
    · rcases List.mem_cons.mp h with h | h
      · exact Or.inl h
      · exact Or.inr h
    · split at h
      · exact Or.inr h
      · rcases List.mem_cons.mp h with h | h
        · exact Or.inr (List.mem_cons.mpr (Or.inl h))
        · rcases ih h with h | h
          · exact Or.inl h
          · exact Or.inr (List.mem_cons.mpr (Or.inr h))

/-- Every trigger dpAccStep adds stores a single T_FLOAT datapoint. -/
theorem dpAccStep_floats {assetName window_data : String} {ti : ℕ}
    {ea : Bool} {dataPointName : String} {d : JValue}
    {acc : List (String × RuleTrigger)}
    (hacc : ∀ p, p ∈ acc → floatsOnly p.2) :
    ∀ p, p ∈ dpAccStep assetName window_data ti ea dataPointName d acc →
      floatsOnly p.2 := by
  intro p hp
  simp only [dpAccStep] at hp
  split at hp
  · split at hp
    · rcases mem_addTrigger hp with h | h
      · subst h
        intro dp hdp
        rcases List.mem_singleton.mp hdp with h2
        exact ⟨_, by rw [h2]⟩
      · exact hacc p h
    · exact hacc p hp
  · exact hacc p hp

/-- Every trigger the datapoints loop adds stores only T_FLOAT
    datapoints. -/
theorem compileDatapoints_floats {assetName window_data : String}
    {ti : ℕ} {ea : Bool} :
    ∀ {ds : List JValue} {acc res : List (String × RuleTrigger)},
      compileDatapoints assetName window_data ti ea acc ds = .ok res →
      (∀ p, p ∈ acc → floatsOnly p.2) → ∀ p, p ∈ res → floatsOnly p.2 := by
  intro ds
  induction ds with
  | nil =>
    intro acc res h hacc
    simp only [compileDatapoints] at h
    cases h
    exact hacc
  | cons d rest ih =>
    intro acc res h hacc
    simp only [compileDatapoints] at h
    split at h
    · split at h
      · exact Except.noConfusion h
      · split at h
        · exact Except.noConfusion h
        · exact ih h (dpAccStep_floats hacc)
    · exact ih h hacc

/-- Every trigger one rule iteration adds stores only T_FLOAT
    datapoints. -/
theorem compileRule_floats {acc res : List (String × RuleTrigger)}
    {rule : JValue} (h : compileRule acc rule = .ok res)
    (hacc : ∀ p, p ∈ acc → floatsOnly p.2) :
    ∀ p, p ∈ res → floatsOnly p.2 := by
  simp only [compileRule] at h
  split at h
  · cases h; exact hacc
  · split at h
    · exact Except.noConfusion h
    · split at h
      · exact Except.noConfusion h
      · split at h
        · exact Except.noConfusion h
        · split at h
          · cases h; exact hacc
          · split at h
            · exact Except.noConfusion h
            · split at h
              · exact Except.noConfusion h
              · split at h
                · exact Except.noConfusion h
                · split at h
                  · exact compileDatapoints_floats h hacc
                  · cases h; exact hacc

/-- Every trigger the rules loop adds stores only T_FLOAT datapoints. -/
theorem compileRules_floats :
    ∀ {rs : List JValue} {acc res : List (String × RuleTrigger)},
      compileRules acc rs = .ok res →
      (∀ p, p ∈ acc → floatsOnly p.2) → ∀ p, p ∈ res → floatsOnly p.2 := by
  intro rs
  induction rs with
  | nil =>
    intro acc res h hacc
    simp only [compileRules] at h
    cases h
    exact hacc
  | cons rule rest ih =>
    intro acc res h hacc
    simp only [compileRules] at h
    split at h
    · exact Except.noConfusion h
    · next acc2 heq => exact ih h (compileRule_floats heq hacc)

/-- On an all-floats trigger the real datapoint loop coincides with the
    dispatch-free loop: the string/default branch is never taken. -/
theorem evalAssetGo_floats (v : JValue) (b : Bool) :
    ∀ (l : List Datapoint) (acc : Bool),
      (∀ dp, dp ∈ l → ∃ q, dp.data = DatapointValue.t_float q) →
      evalAssetGo v b acc l = evalAssetFloatsGo v b acc l := by
  intro l
  induction l with
  | nil => intro acc _; rfl
  | cons dp rest ih =>
    intro acc hl
    obtain ⟨nm, dpd⟩ := dp
    obtain ⟨q, hq⟩ := hl ⟨nm, dpd⟩ (List.mem_cons_self _ rest)
    have hq2 : dpd = DatapointValue.t_float q := hq
    subst hq2
    have hrest : ∀ dp2, dp2 ∈ rest → ∃ q2, dp2.data = .t_float q2 :=
      fun dp2 h2 => hl dp2 (List.mem_cons_of_mem _ h2)
    simp only [evalAssetGo, evalAssetFloatsGo, DatapointValue.toDouble]
    cases hm : v.getMember nm with
    | none => exact ih false hrest
    | some point =>
      dsimp only
      by_cases hcb : (checkDoubleLimit point q && !b) = true
      · rw [if_pos hcb, if_pos hcb]
      · rw [if_neg hcb, if_neg hcb]
        exact ih _ hrest

/-- C10: compiler invariant and its evaluation consequence.  Whenever a
    configure run replaces the trigger set without aborting, every
    trigger it can produce stores its datapoint value as a T_FLOAT (so
    any trigger of the result is either inherited unchanged or
    all-floats); consequently evalAsset on such a trigger behaves as the
    dispatch-free float evaluator — the string/default branch of the
    type switch is never taken. -/
theorem c10_compiler_floats_only :
    (∀ parsed old res, configureTriggers parsed old = .ok res →
      ∀ p, p ∈ res → p ∈ old ∨ floatsOnly p.2) ∧
    (∀ v rule, floatsOnly rule →
      evalAsset v rule = evalAssetFloats v rule) := by
  constructor
  · intro parsed old res h p hp
    match parsed with
    | none =>
      simp only [configureTriggers] at h
      cases h
      exact Or.inl hp
    | some doc =>
      simp only [configureTriggers] at h
      split at h
      · cases h; exact Or.inl hp
      · split at h
        · exact Or.inr (compileRules_floats h (by intro p2 hp2; cases hp2) p hp)
        · cases h; exact Or.inl hp
  · intro v rule hfl
    exact evalAssetGo_floats v rule.evalAll rule.datapoints false hfl

/-- A well-formed single-rule configuration for asset a3 with
    trigger_value 7. -/
def ruleC10 : JValue :=
  .jobj [(kAsset, .jobj [(kName, .jstr ("a3"))]),
    (kDatapoints, .jarr [.jobj [(kName, .jstr ("dp3")),
      (kTriggerValue, .jnum (.rdouble 7))]])]

def cfgC10 : JValue := .jobj [(kRules, .jarr [ruleC10])]

/-- The trigger the C10 configuration compiles to. -/
def trigC10 : RuleTrigger := ⟨"", 0, true, [⟨"dp3", .t_float 7⟩]⟩

def trigsC10 : List (String × RuleTrigger) := [("a3", trigC10)]

/-- Reading whose datapoint dp3 is 9 (above the limit 7). -/
def vC10 : JValue := .jobj [("dp3", .jnum (.rdouble 9))]

/-- Witness for C10 at a concrete configuration, trigger and reading. -/
theorem c10_witness :
    (("a3", trigC10) ∈ ([] : List (String × RuleTrigger)) ∨
      floatsOnly trigC10) ∧
    evalAsset vC10 trigC10 = evalAssetFloats vC10 trigC10 ∧
    evalAsset vC10 trigC10 = true := by
  have h1 := c10_compiler_floats_only.1 (some cfgC10) [] trigsC10 (by rfl)
    ("a3", trigC10) (by decide)
  have h2 : floatsOnly trigC10 := by
    intro dp hdp
    have h3 : dp = ⟨"dp3", DatapointValue.t_float 7⟩ := by
      simpa [trigC10] using hdp
    exact ⟨7, by rw [h3]⟩
  exact ⟨h1, c10_compiler_floats_only.2 vC10 trigC10 h2, by decide⟩

end OutOfBoundRule
